import Mathlib

/-!
# Verification of the automate-pipeline core

Shallow embedding of the ETL / training / forecasting core of the
repository (src/data/etl.py, src/models/train_model.py, src/app.py),
together with theorems settling the specification claims.

Conventions of the embedding:
* pandas DataFrames become Lists of structure rows;
* `NaN`-able raw columns become `Option` fields, `dropna` keeps rows with
  all fields present;
* SQL `GROUP BY`/`ORDER BY` queries become key-deduplication, summation
  and sorting on lists;
* real arithmetic is carried out in `ℚ`;
* fallible operations (Python exceptions) return `Except String`.
-/

/- Core marks rational arithmetic `@[irreducible]`; witnesses evaluate the
embedded pipeline on concrete inputs by kernel reduction, which needs these
operations to unfold. -/
attribute [local semireducible] Rat.add Rat.mul Rat.sub Rat.inv

namespace AutomatePipeline

/-! ## Generic list helpers (pandas semantics) -/

/-- Worker for `firstDedupBy`: `seen` holds the key values already kept. -/
def firstDedupByAux {α κ : Type} [DecidableEq κ] (k : α → κ) (seen : List κ) :
    List α → List α
  | [] => []
  | a :: l =>
    if k a ∈ seen then firstDedupByAux k seen l
    else a :: firstDedupByAux k (k a :: seen) l

/-- `drop_duplicates(subset=[key])` with pandas semantics: keep the first
row carrying each key value, in order of first occurrence. -/
def firstDedupBy {α κ : Type} [DecidableEq κ] (k : α → κ) (l : List α) : List α :=
  firstDedupByAux k [] l

/-- `drop_duplicates()` / `Series.unique()` with pandas semantics:
first-occurrence order. -/
def firstDedup {α : Type} [DecidableEq α] (l : List α) : List α :=
  firstDedupBy id l

/-- `pandas.factorize` codes: each element is mapped to the index of its
value in the first-occurrence list of distinct values. -/
def factorize {α : Type} [DecidableEq α] (l : List α) : List Nat :=
  l.map (fun a => (firstDedup l).indexOf a)

/-- `numpy .max()` over a list of codes (0 default is never used on the
nonempty inputs it models). -/
def listMax (l : List Nat) : Nat := l.foldr max 0

/-! ## Sort-key relations (SQL ORDER BY / pandas sort_values) -/

/-- Rows compared by a single sort key. -/
def byKey {α κ : Type} [LinearOrder κ] (f : α → κ) (a b : α) : Prop :=
  f a ≤ f b

instance {α κ : Type} [LinearOrder κ] (f : α → κ) : DecidableRel (byKey f) :=
  fun a b => inferInstanceAs (Decidable (f a ≤ f b))

instance {α κ : Type} [LinearOrder κ] (f : α → κ) : IsTotal α (byKey f) :=
  ⟨fun a b => le_total (f a) (f b)⟩

instance {α κ : Type} [LinearOrder κ] (f : α → κ) : IsTrans α (byKey f) :=
  ⟨fun _ _ _ h₁ h₂ => le_trans h₁ h₂⟩

/-- Rows compared lexicographically by a primary and a secondary sort key. -/
def keyLex {α κ₁ κ₂ : Type} [LinearOrder κ₁] [LinearOrder κ₂]
    (f : α → κ₁) (g : α → κ₂) (a b : α) : Prop :=
  f a < f b ∨ (f a = f b ∧ g a ≤ g b)

instance {α κ₁ κ₂ : Type} [LinearOrder κ₁] [LinearOrder κ₂]
    (f : α → κ₁) (g : α → κ₂) : DecidableRel (keyLex f g) :=
  fun a b => inferInstanceAs (Decidable (f a < f b ∨ (f a = f b ∧ g a ≤ g b)))

instance {α κ₁ κ₂ : Type} [LinearOrder κ₁] [LinearOrder κ₂]
    (f : α → κ₁) (g : α → κ₂) : IsTotal α (keyLex f g) :=
  ⟨fun a b => by
    rcases lt_trichotomy (f a) (f b) with h | h | h
    · exact Or.inl (Or.inl h)
    · rcases le_total (g a) (g b) with hg | hg
      · exact Or.inl (Or.inr ⟨h, hg⟩)
      · exact Or.inr (Or.inr ⟨h.symm, hg⟩)
    · exact Or.inr (Or.inl h)⟩

instance {α κ₁ κ₂ : Type} [LinearOrder κ₁] [LinearOrder κ₂]
    (f : α → κ₁) (g : α → κ₂) : IsTrans α (keyLex f g) :=
  ⟨fun a b c h₁ h₂ => by
    rcases h₁ with h₁ | ⟨e₁, g₁⟩
    · rcases h₂ with h₂ | ⟨e₂, _⟩
      · exact Or.inl (h₁.trans h₂)
      · exact Or.inl (lt_of_lt_of_eq h₁ e₂)
    · rcases h₂ with h₂ | ⟨e₂, g₂⟩
      · exact Or.inl (lt_of_eq_of_lt e₁ h₂)
      · exact Or.inr ⟨e₁.trans e₂, g₁.trans g₂⟩⟩

/-! ## Month keys -/

/-- A calendar month key, the `YYYY-MM` string that
`InvoiceDate.dt.to_period("M").astype(str)` produces; the string order on
those is the lexicographic order on (year, month). -/
structure MonthKey where
  year : Nat
  month : Nat
deriving DecidableEq, Repr

instance : LinearOrder MonthKey :=
  LinearOrder.lift' (fun k => toLex (k.year, k.month)) (by
    rintro ⟨y₁, m₁⟩ ⟨y₂, m₂⟩ h
    have h' : (y₁, m₁) = (y₂, m₂) := congrArg ofLex h
    simp only [Prod.mk.injEq] at h'
    simp [h'.1, h'.2])

/-! ## Data model (src/data/etl.py) -/

/-- A calendar date. Time-of-day is dropped: `date_id` is the date string
`str(InvoiceDate.date())` and the month key only uses year and month, so
two timestamps on the same date always agree on both. -/
structure Date where
  year : Nat
  month : Nat
  day : Nat
deriving DecidableEq, Repr

/-- `InvoiceDate.dt.to_period("M")`. -/
def Date.monthKey (d : Date) : MonthKey := ⟨d.year, d.month⟩

/-- `InvoiceDate.dt.quarter`. -/
def Date.quarter (d : Date) : Nat := (d.month - 1) / 3 + 1

/-- One row of the `sales_log` source table; every column may hold NaN. -/
structure RawRow where
  invoiceNo : Option String
  stockCode : Option String
  description : Option String
  quantity : Option Int
  invoiceDate : Option Date
  unitPrice : Option ℚ
  customerID : Option Int
  country : Option String
deriving DecidableEq, Repr

/-- A row that survived `df.dropna()`. -/
structure CleanRow where
  invoiceNo : String
  stockCode : String
  description : String
  quantity : Int
  invoiceDate : Date
  unitPrice : ℚ
  customerID : Int
  country : String
deriving DecidableEq, Repr

/-- A single row under `df.dropna()`: kept iff every column is present. -/
def cleanRow (r : RawRow) : Option CleanRow :=
  match r.invoiceNo, r.stockCode, r.description, r.quantity,
      r.invoiceDate, r.unitPrice, r.customerID, r.country with
  | some i, some s, some d, some q, some dt, some u, some c, some co =>
    some ⟨i, s, d, q, dt, u, c, co⟩
  | _, _, _, _, _, _, _, _ => none

/-- `df.dropna(inplace=True)`. -/
def dropna (raw : List RawRow) : List CleanRow := raw.filterMap cleanRow

structure DimDateRow where
  date_id : Date
  year : Nat
  month : MonthKey
  quarter : Nat
deriving DecidableEq, Repr

structure DimCustomerRow where
  customerID : Int
  country : String
deriving DecidableEq, Repr

structure DimProductRow where
  stockCode : String
  description : String
deriving DecidableEq, Repr

structure FactRow where
  date_id : Date
  customerID : Int
  stockCode : String
  quantity : Int
  revenue : ℚ
deriving DecidableEq, Repr

/-! ## Warehouse Builder (`run_etl`) -/

def mkDimDateRow (r : CleanRow) : DimDateRow :=
  ⟨r.invoiceDate, r.invoiceDate.year, r.invoiceDate.monthKey, r.invoiceDate.quarter⟩

/-- `dim_date`: derived date attributes, `drop_duplicates(subset=["date_id"])`. -/
def dimDate (rows : List CleanRow) : List DimDateRow :=
  firstDedupBy (fun d => d.date_id) (rows.map mkDimDateRow)

/-- `dim_customer = df[["CustomerID", "Country"]].drop_duplicates()`:
the deduplication key is the whole (CustomerID, Country) pair. -/
def dimCustomer (rows : List CleanRow) : List DimCustomerRow :=
  firstDedup (rows.map fun r => ⟨r.customerID, r.country⟩)

/-- `dim_product = df[["StockCode", "Description"]].drop_duplicates()`:
the deduplication key is the whole (StockCode, Description) pair. -/
def dimProduct (rows : List CleanRow) : List DimProductRow :=
  firstDedup (rows.map fun r => ⟨r.stockCode, r.description⟩)

/-- `fact_sales` with `revenue = Quantity * UnitPrice`. -/
def factSales (rows : List CleanRow) : List FactRow :=
  rows.map fun r =>
    ⟨r.invoiceDate, r.customerID, r.stockCode, r.quantity, (r.quantity : ℚ) * r.unitPrice⟩

/-- The four persisted warehouse tables. -/
structure Warehouse where
  dim_date : List DimDateRow
  dim_customer : List DimCustomerRow
  dim_product : List DimProductRow
  fact_sales : List FactRow
deriving DecidableEq, Repr

/- Decidable equality of embedded `Except` results, for evaluating
counterexamples on concrete inputs. -/
deriving instance DecidableEq for Except

/-- `DataFrame.to_sql` write modes. -/
inductive IfExists
  | replace
  | append
deriving DecidableEq, Repr

/-- `to_sql(..., if_exists=mode)`: how the written table relates to the
previously stored one. -/
def toSqlTable {α : Type} : IfExists → List α → List α → List α
  | .replace, new, _ => new
  | .append, new, old => old ++ new

structure MonthlySalesRow where
  month : MonthKey
  totalRevenue : ℚ
deriving DecidableEq, Repr

structure MonthlyCustomerRow where
  month : MonthKey
  customerID : Int
  totalRevenue : ℚ
deriving DecidableEq, Repr

structure MonthlyProductRow where
  month : MonthKey
  description : String
  totalRevenue : ℚ
deriving DecidableEq, Repr

/-- `fact_sales fs JOIN dim_date dd ON fs.date_id = dd.date_id`, keeping
the fact row and the joined month column. -/
def factJoinDate (w : Warehouse) : List (FactRow × MonthKey) :=
  w.fact_sales.flatMap fun f =>
    (w.dim_date.filter fun d => d.date_id = f.date_id).map fun d => (f, d.month)

/-- The distinct months of the date-joined fact rows, in the `ORDER BY
month` ascending order (the GROUP BY keys of the global aggregate). -/
def monthKeysSorted (w : Warehouse) : List MonthKey :=
  List.insertionSort (byKey id) (firstDedup ((factJoinDate w).map Prod.snd))

/-- `SUM(revenue)` of one month group of the global aggregate. -/
def monthRevenue (w : Warehouse) (m : MonthKey) : ℚ :=
  (((factJoinDate w).filter fun p => p.snd = m).map fun p => p.fst.revenue).sum

/-- The global monthly aggregate query:
`SELECT month, SUM(revenue) ... GROUP BY month ORDER BY month`. -/
def monthlySales (w : Warehouse) : List MonthlySalesRow :=
  (monthKeysSorted w).map fun m => ⟨m, monthRevenue w m⟩

/-- The distinct (CustomerID, month) pairs of the date-joined fact rows,
in `ORDER BY CustomerID, month` order. -/
def customerKeysSorted (w : Warehouse) : List (Int × MonthKey) :=
  List.insertionSort (keyLex Prod.fst Prod.snd)
    (firstDedup ((factJoinDate w).map fun p => (p.fst.customerID, p.snd)))

/-- `SUM(revenue)` of one (CustomerID, month) group. -/
def customerRevenue (w : Warehouse) (k : Int × MonthKey) : ℚ :=
  (((factJoinDate w).filter fun p =>
    p.fst.customerID = k.fst ∧ p.snd = k.snd).map fun p => p.fst.revenue).sum

/-- The per-customer monthly aggregate query:
`GROUP BY month, CustomerID ORDER BY CustomerID, month`. -/
def monthlyCustomer (w : Warehouse) : List MonthlyCustomerRow :=
  (customerKeysSorted w).map fun k => ⟨k.snd, k.fst, customerRevenue w k⟩

/-- `... JOIN dim_product p ON fs.StockCode = p.StockCode`: the date-joined
fact rows further joined to the product dimension. -/
def factJoinDateProduct (w : Warehouse) : List (FactRow × MonthKey × String) :=
  (factJoinDate w).flatMap fun p =>
    (w.dim_product.filter fun q => q.stockCode = p.fst.stockCode).map fun q =>
      (p.fst, p.snd, q.description)

/-- The distinct (Description, month) pairs of the product-joined fact
rows, in `ORDER BY p.Description, month` order. -/
def productKeysSorted (w : Warehouse) : List (String × MonthKey) :=
  List.insertionSort (keyLex Prod.fst Prod.snd)
    (firstDedup ((factJoinDateProduct w).map fun t => (t.snd.snd, t.snd.fst)))

/-- `SUM(revenue)` of one (Description, month) group. -/
def productRevenue (w : Warehouse) (k : String × MonthKey) : ℚ :=
  (((factJoinDateProduct w).filter fun t =>
    t.snd.snd = k.fst ∧ t.snd.fst = k.snd).map fun t => t.fst.revenue).sum

/-- The per-product monthly aggregate query:
`GROUP BY month, p.Description ORDER BY p.Description, month`. -/
def monthlyProduct (w : Warehouse) : List MonthlyProductRow :=
  (productKeysSorted w).map fun k => ⟨k.snd, k.fst, productRevenue w k⟩

/-- `run_etl`: clean `sales_log`, build the star schema, write the four
tables with `if_exists="replace"` over the previous database contents, and
read the three monthly aggregates back from the written tables. -/
def run_etl (salesLog : List RawRow) (db : Warehouse) :
    Warehouse × List MonthlySalesRow × List MonthlyCustomerRow × List MonthlyProductRow :=
  let df := dropna salesLog
  let w : Warehouse :=
    { dim_date := toSqlTable .replace (dimDate df) db.dim_date
      dim_customer := toSqlTable .replace (dimCustomer df) db.dim_customer
      dim_product := toSqlTable .replace (dimProduct df) db.dim_product
      fact_sales := toSqlTable .replace (factSales df) db.fact_sales }
  (w, monthlySales w, monthlyCustomer w, monthlyProduct w)

/-! ## Entity Model Trainer (src/models/train_model.py) -/

/-- Projection of a per-customer aggregate row onto the (month,
TotalRevenue) columns `train_model` reads. -/
def MonthlyCustomerRow.toSeries (r : MonthlyCustomerRow) : MonthlySalesRow :=
  ⟨r.month, r.totalRevenue⟩

/-- Projection of a per-product aggregate row onto the (month,
TotalRevenue) columns `train_model` reads. -/
def MonthlyProductRow.toSeries (r : MonthlyProductRow) : MonthlySalesRow :=
  ⟨r.month, r.totalRevenue⟩

/-- `df = df.sort_values("month")` inside `train_model`. -/
def sortByMonth (df : List MonthlySalesRow) : List MonthlySalesRow :=
  List.insertionSort (byKey MonthlySalesRow.month) df

/-- `df["MonthIndex"] = pd.factorize(df["month"])[0]` after the sort: the
ordinal month index column, the model's explanatory variable. -/
def monthIndices (df : List MonthlySalesRow) : List Nat :=
  factorize ((sortByMonth df).map MonthlySalesRow.month)

/-- `n_test = ceil(0.2 * n)`, the holdout size that
`train_test_split(test_size=0.2, shuffle=False)` computes. -/
def nTest (n : Nat) : Nat := (n + 4) / 5

/-- The chronological-prefix training-set size `n - n_test`. -/
def nTrain (n : Nat) : Nat := n - nTest n

/-- The regression points `(MonthIndex, TotalRevenue)` in sorted order. -/
def seriesPoints (df : List MonthlySalesRow) : List (Nat × ℚ) :=
  (monthIndices df).zip ((sortByMonth df).map MonthlySalesRow.totalRevenue)

/-- The leading 80% of the points, which `model.fit` consumes. -/
def trainPoints (df : List MonthlySalesRow) : List (Nat × ℚ) :=
  (seriesPoints df).take (nTrain df.length)

/-- The trailing 20% of the points, held out for evaluation. -/
def testPoints (df : List MonthlySalesRow) : List (Nat × ℚ) :=
  (seriesPoints df).drop (nTrain df.length)

/-- Ordinary least squares for `y = intercept + slope * x`
(`LinearRegression().fit`). On a single point the denominator and
numerator are both zero and the rational convention `0 / 0 = 0` matches
the minimum-norm slope 0 that scipy's `lstsq` returns there. -/
def olsFit (pts : List (Nat × ℚ)) : ℚ × ℚ :=
  let n : ℚ := pts.length
  let sx : ℚ := (pts.map fun p => (p.fst : ℚ)).sum
  let sy : ℚ := (pts.map Prod.snd).sum
  let sxx : ℚ := (pts.map fun p => (p.fst : ℚ) ^ 2).sum
  let sxy : ℚ := (pts.map fun p => (p.fst : ℚ) * p.snd).sum
  let slope := (n * sxy - sx * sy) / (n * sxx - sx ^ 2)
  let intercept := (sy - slope * sx) / n
  (slope, intercept)

/-- `model.predict([[x]])` for the fitted pair. -/
def olsPredict (m : ℚ × ℚ) (x : ℚ) : ℚ := m.fst * x + m.snd

/-- `mean_squared_error(y_test, y_pred)`. -/
def meanSquaredError (m : ℚ × ℚ) (pts : List (Nat × ℚ)) : ℚ :=
  ((pts.map fun p => (p.snd - olsPredict m (p.fst : ℚ)) ^ 2).sum) / pts.length

/-- A persisted model artifact: target file name plus coefficients. -/
structure Artifact where
  filename : String
  slope : ℚ
  intercept : ℚ
deriving DecidableEq, Repr

/-- `f"models/{name}_model.pkl"`. -/
def modelFilename (name : String) : String := "models/" ++ name ++ "_model.pkl"

/-- `train_model(df, name=name)`: sort by month, derive the ordinal month
index, split chronologically with `test_size=0.2`, fit, score, and persist
`models/{name}_model.pkl`. The returned pair is the saved artifact and the
reported MSE. `train_test_split` raises `ValueError` when the resulting
training set would be empty (series of length 0 or 1); no other statement
raises. -/
def train_model (df : List MonthlySalesRow) (name : String) :
    Except String (Artifact × ℚ) :=
  if nTrain df.length = 0 then
    Except.error "ValueError: the resulting train set will be empty"
  else
    let m := olsFit (trainPoints df)
    Except.ok (⟨modelFilename name, m.fst, m.snd⟩, meanSquaredError m (testPoints df))

/-- The per-customer loop of the `__main__` block, over a list of customer
ids: filter the aggregate to the customer, train only when
`len(cust_df) >= 5`, and collect the saved artifacts in loop order. -/
def trainCustomerLoop (mc : List MonthlyCustomerRow) :
    List Int → Except String (List Artifact)
  | [] => Except.ok []
  | cid :: rest =>
    if 5 ≤ (mc.filter fun r => r.customerID = cid).length then
      match train_model ((mc.filter fun r => r.customerID = cid).map
          MonthlyCustomerRow.toSeries) ("customer_" ++ toString cid) with
      | Except.error e => Except.error e
      | Except.ok a =>
        match trainCustomerLoop mc rest with
        | Except.error e => Except.error e
        | Except.ok arts => Except.ok (a.fst :: arts)
    else trainCustomerLoop mc rest

/-- Trainer-side product key sanitization:
`re.sub(r'[^a-zA-Z0-9_]', '_', desc.lower())[:50]`. -/
def trainerSafeName (desc : String) : String :=
  (((desc.toList.map Char.toLower).map fun c =>
      if c.isAlphanum then c else if c = '_' then c else '_').take 50).asString

/-- The per-product loop of the `__main__` block, over a list of product
descriptions, guarded by `len(prod_df) >= 5`. -/
def trainProductLoop (mp : List MonthlyProductRow) :
    List String → Except String (List Artifact)
  | [] => Except.ok []
  | desc :: rest =>
    if 5 ≤ (mp.filter fun r => r.description = desc).length then
      match train_model ((mp.filter fun r => r.description = desc).map
          MonthlyProductRow.toSeries) ("product_" ++ trainerSafeName desc) with
      | Except.error e => Except.error e
      | Except.ok a =>
        match trainProductLoop mp rest with
        | Except.error e => Except.error e
        | Except.ok arts => Except.ok (a.fst :: arts)
    else trainProductLoop mp rest

/-- The `__main__` block of train_model.py: train the global model
unconditionally on the global aggregate, then the per-customer and
per-product models over the `.unique()` entity lists. The result is the
list of saved artifacts, in save order. -/
def trainMain (ms : List MonthlySalesRow) (mc : List MonthlyCustomerRow)
    (mp : List MonthlyProductRow) : Except String (List Artifact) :=
  match train_model ms "global" with
  | Except.error e => Except.error e
  | Except.ok g =>
    match trainCustomerLoop mc (firstDedup (mc.map MonthlyCustomerRow.customerID)) with
    | Except.error e => Except.error e
    | Except.ok cs =>
      match trainProductLoop mp (firstDedup (mp.map MonthlyProductRow.description)) with
      | Except.error e => Except.error e
      | Except.ok ps => Except.ok (g.fst :: (cs ++ ps))

/-! ## Forecast Service and dashboard computations (src/app.py) -/

/-- `calculate_growth_metrics(df, value_column)`: growth of the last value
over the one before it, with an explicit zero-denominator special case.
Returns `(growth_pct, growth_abs, trend)`. -/
def calculate_growth_metrics (vals : List ℚ) : ℚ × ℚ × String :=
  if vals.length < 2 then (0, 0, "neutral")
  else
    let current := vals.getD (vals.length - 1) 0
    let previous := vals.getD (vals.length - 2) 0
    let growth_pct : ℚ :=
      if previous = 0 then (if 0 < current then 100 else 0)
      else ((current - previous) / |previous|) * 100
    let growth_abs := current - previous
    let trend :=
      if 0 < growth_pct then "up" else if growth_pct < 0 then "down" else "neutral"
    (growth_pct, growth_abs, trend)

/-- The year-over-year growth the Global tab computes when at least 13
months exist: `(current_month - year_ago_month) / year_ago_month * 100`
with no zero-denominator guard. When `year_ago_month` is zero the float
division is ill-defined (numpy yields inf/nan, not the 0%/100%
convention); the embedding returns `none` exactly in that case. -/
def yoyChange (vals : List ℚ) : Option ℚ :=
  let current_month := vals.getD (vals.length - 1) 0
  let year_ago_month := vals.getD (vals.length - 13) 0
  if year_ago_month = 0 then none
  else some ((current_month - year_ago_month) / year_ago_month * 100)

/-- The Global-tab forecast interpretation:
`(prediction - last_month_value) / last_month_value * 100` with no
zero-denominator guard; `none` models the unguarded zero division. -/
def forecastChangeGlobal (prediction last_month_value : ℚ) : Option ℚ :=
  if last_month_value = 0 then none
  else some ((prediction - last_month_value) / last_month_value * 100)

/-- The Customer-tab forecast change:
`((prediction - last_value) / last_value * 100) if last_value != 0 else 0`. -/
def forecastChangeCustomer (prediction last_value : ℚ) : ℚ :=
  if last_value = 0 then 0 else (prediction - last_value) / last_value * 100

/-- The Product-tab forecast change, same guarded form as the customer
tab. -/
def forecastChangeProduct (prediction last_value : ℚ) : ℚ :=
  if last_value = 0 then 0 else (prediction - last_value) / last_value * 100

/-- `last_index = df["Month"].factorize()[0].max() + 1`: the next-month
ordinal index every forecast section feeds to `model.predict`, computed on
the entity's month column as delivered by the aggregate view. -/
def forecastNextIndex (months : List MonthKey) : Nat :=
  listMax (factorize months) + 1

/-- The largest ordinal month index `train_model` assigns to a series. -/
def trainerMaxIndex (df : List MonthlySalesRow) : Nat :=
  listMax (monthIndices df)

/-- Forecast-side product key sanitization:
`selected_prod.replace(" ", "_").replace("/", "_").lower()[:30]`. -/
def appSafeName (desc : String) : String :=
  (((desc.toList.map fun c =>
      if c = ' ' then '_' else if c = '/' then '_' else c).map
        Char.toLower).take 30).asString

/-- The file the Product tab looks up:
`os.path.join("models", f"product_{safe_name}_model.pkl")`. -/
def appProductModelPath (desc : String) : String :=
  modelFilename ("product_" ++ appSafeName desc)

/-- The file the trainer writes for a product description. -/
def trainerProductModelPath (desc : String) : String :=
  modelFilename ("product_" ++ trainerSafeName desc)

/-- An empty database state, used as a neutral prior warehouse. -/
def emptyWarehouse : Warehouse := ⟨[], [], [], []⟩

/-! ## Concrete inputs used by witnesses and counterexamples -/

/-- Two clean January-2024 transactions (revenue 10 and 20) plus one row
with a missing StockCode that `dropna` removes. -/
def c1log : List RawRow :=
  [⟨some "I1", some "A", some "Apple", some 2, some ⟨2024, 1, 5⟩, some 5, some 7, some "UK"⟩,
   ⟨some "I2", some "A", some "Apple", some 4, some ⟨2024, 1, 7⟩, some 5, some 7, some "UK"⟩,
   ⟨some "I3", none, some "Pear", some 1, some ⟨2024, 1, 9⟩, some 3, some 8, some "UK"⟩]

/-- A global monthly series with only 4 distinct months. -/
def c2series : List MonthlySalesRow :=
  [⟨⟨2024, 1⟩, 100⟩, ⟨⟨2024, 2⟩, 120⟩, ⟨⟨2024, 3⟩, 110⟩, ⟨⟨2024, 4⟩, 130⟩]

/-- A 5-month series delivered out of chronological order. -/
def c3series : List MonthlySalesRow :=
  [⟨⟨2024, 3⟩, 30⟩, ⟨⟨2024, 1⟩, 10⟩, ⟨⟨2024, 5⟩, 50⟩, ⟨⟨2024, 2⟩, 20⟩, ⟨⟨2024, 4⟩, 40⟩]

/-- A 3-month series with a gap, in aggregate-view order. -/
def c4series : List MonthlySalesRow :=
  [⟨⟨2024, 1⟩, 10⟩, ⟨⟨2024, 2⟩, 20⟩, ⟨⟨2024, 4⟩, 40⟩]

/-- One customer id appearing with two countries, and one stock code with
two descriptions. -/
def c7log : List RawRow :=
  [⟨some "I1", some "A1", some "Red", some 1, some ⟨2024, 1, 5⟩, some 2, some 42, some "France"⟩,
   ⟨some "I2", some "A1", some "Blue", some 1, some ⟨2024, 1, 6⟩, some 2, some 42, some "Spain"⟩]

/-- Customer 1 buys in January and February, customer 2 in January. -/
def c8log : List RawRow :=
  [⟨some "I1", some "A", some "Apple", some 1, some ⟨2024, 1, 5⟩, some 2, some 1, some "UK"⟩,
   ⟨some "I2", some "A", some "Apple", some 1, some ⟨2024, 2, 5⟩, some 2, some 1, some "UK"⟩,
   ⟨some "I3", some "A", some "Apple", some 1, some ⟨2024, 1, 8⟩, some 2, some 2, some "UK"⟩]

/-- Thirteen monthly revenues whose year-ago entry is zero. -/
def c9vals : List ℚ := List.replicate 13 0

/-- Thirteen monthly revenues with a zero year-ago value and a positive
current value. -/
def c9bad : List ℚ := [0, 1, 1, 1, 1, 1, 1, 1, 1, 1, 1, 1, 5]

/-- A concrete 5-month series for the split witness. -/
def c10series : List MonthlySalesRow :=
  [⟨⟨2024, 1⟩, 100⟩, ⟨⟨2024, 2⟩, 120⟩, ⟨⟨2024, 3⟩, 110⟩, ⟨⟨2024, 4⟩, 130⟩, ⟨⟨2024, 5⟩, 125⟩]

/-! ## General lemmas about the helper functions -/

theorem mem_of_mem_firstDedupByAux {α κ : Type} [DecidableEq κ] (k : α → κ) :
    ∀ (seen : List κ) (l : List α) (a : α), a ∈ firstDedupByAux k seen l → a ∈ l := by
  intro seen l
  induction l generalizing seen with
  | nil => intro a h; simp [firstDedupByAux] at h
  | cons b l ih =>
    intro a h
    rw [firstDedupByAux] at h
    by_cases hb : k b ∈ seen
    · rw [if_pos hb] at h
      exact List.mem_cons_of_mem _ (ih seen a h)
    · rw [if_neg hb] at h
      rcases List.mem_cons.mp h with rfl | h
      · exact List.mem_cons_self _ _
      · exact List.mem_cons_of_mem _ (ih _ a h)

theorem mem_of_mem_firstDedupBy {α κ : Type} [DecidableEq κ] (k : α → κ)
    (l : List α) (a : α) (h : a ∈ firstDedupBy k l) : a ∈ l :=
  mem_of_mem_firstDedupByAux k [] l a h

theorem firstDedupByAux_nodup_keys {α κ : Type} [DecidableEq κ] (k : α → κ) :
    ∀ (seen : List κ) (l : List α),
      ((firstDedupByAux k seen l).map k).Nodup ∧
      ∀ b ∈ firstDedupByAux k seen l, k b ∉ seen := by
  intro seen l
  induction l generalizing seen with
  | nil => simp [firstDedupByAux]
  | cons a l ih =>
    rw [firstDedupByAux]
    by_cases ha : k a ∈ seen
    · rw [if_pos ha]
      exact ih seen
    · rw [if_neg ha]
      obtain ⟨ihn, ihs⟩ := ih (k a :: seen)
      refine ⟨?_, ?_⟩
      · simp only [List.map_cons, List.nodup_cons]
        refine ⟨fun hmem => ?_, ihn⟩
        rcases List.mem_map.mp hmem with ⟨b, hb, hkb⟩
        exact ihs b hb (hkb ▸ List.mem_cons_self _ _)
      · intro b hb
        rcases List.mem_cons.mp hb with rfl | hb
        · exact ha
        · exact fun hmem => ihs b hb (List.mem_cons_of_mem _ hmem)

theorem keys_nodup_firstDedupBy {α κ : Type} [DecidableEq κ] (k : α → κ)
    (l : List α) : ((firstDedupBy k l).map k).Nodup :=
  (firstDedupByAux_nodup_keys k [] l).1

theorem key_mem_firstDedupByAux {α κ : Type} [DecidableEq κ] (k : α → κ) :
    ∀ (seen : List κ) (l : List α) (a : α), a ∈ l →
      k a ∈ (firstDedupByAux k seen l).map k ∨ k a ∈ seen := by
  intro seen l
  induction l generalizing seen with
  | nil => intro a h; cases h
  | cons b l ih =>
    intro a h
    rw [firstDedupByAux]
    by_cases hb : k b ∈ seen
    · rw [if_pos hb]
      rcases List.mem_cons.mp h with rfl | h
      · exact Or.inr hb
      · exact ih seen a h
    · rw [if_neg hb]
      simp only [List.map_cons, List.mem_cons]
      rcases List.mem_cons.mp h with rfl | h
      · exact Or.inl (Or.inl rfl)
      · rcases ih (k b :: seen) a h with hmem | hmem
        · exact Or.inl (Or.inr hmem)
        · rcases List.mem_cons.mp hmem with he | hmem
          · exact Or.inl (Or.inl he)
          · exact Or.inr hmem

theorem key_mem_firstDedupBy {α κ : Type} [DecidableEq κ] (k : α → κ)
    (l : List α) (a : α) (h : a ∈ l) : k a ∈ (firstDedupBy k l).map k := by
  rcases key_mem_firstDedupByAux k [] l a h with hm | hm
  · exact hm
  · cases hm

theorem mem_firstDedup {α : Type} [DecidableEq α] (l : List α) (a : α) :
    a ∈ firstDedup l ↔ a ∈ l := by
  constructor
  · exact mem_of_mem_firstDedupBy id l a
  · intro h
    have := key_mem_firstDedupBy id l a h
    simpa using this

theorem nodup_firstDedup {α : Type} [DecidableEq α] (l : List α) :
    (firstDedup l).Nodup := by
  have := keys_nodup_firstDedupBy (α := α) id l
  simpa using this

theorem firstDedupByAux_eq_self {α κ : Type} [DecidableEq κ] (k : α → κ) :
    ∀ (seen : List κ) (l : List α), (l.map k).Nodup →
      (∀ a ∈ l, k a ∉ seen) → firstDedupByAux k seen l = l := by
  intro seen l
  induction l generalizing seen with
  | nil => intro _ _; rfl
  | cons a l ih =>
    intro hnd hseen
    rw [firstDedupByAux, if_neg (hseen a (List.mem_cons_self _ _))]
    simp only [List.map_cons, List.nodup_cons] at hnd
    refine congrArg (a :: ·) (ih _ hnd.2 ?_)
    intro b hb hmem
    rcases List.mem_cons.mp hmem with he | hmem
    · exact hnd.1 (he ▸ List.mem_map_of_mem k hb)
    · exact hseen b (List.mem_cons_of_mem _ hb) hmem

theorem firstDedup_eq_self {α : Type} [DecidableEq α]
    (l : List α) (h : l.Nodup) : firstDedup l = l := by
  refine firstDedupByAux_eq_self id [] l ?_ (by simp)
  simpa using h

theorem factorize_of_nodup {α : Type} [DecidableEq α] (l : List α) (h : l.Nodup) :
    factorize l = List.range l.length := by
  rw [factorize, firstDedup_eq_self l h]
  apply List.ext_getElem (by simp)
  intro i h₁ h₂
  simp only [List.getElem_map, List.getElem_range]
  exact List.indexOf_getElem h i (by simpa using h₁)

theorem le_listMax {l : List Nat} {x : Nat} (h : x ∈ l) : x ≤ listMax l := by
  induction l with
  | nil => cases h
  | cons a l ih =>
    simp only [listMax, List.foldr_cons]
    rcases List.mem_cons.mp h with rfl | h
    · exact le_max_left _ _
    · exact le_trans (ih h) (le_max_right _ _)

theorem listMax_le {l : List Nat} {m : Nat} (h : ∀ x ∈ l, x ≤ m) : listMax l ≤ m := by
  induction l with
  | nil => exact Nat.zero_le m
  | cons a l ih =>
    simp only [listMax, List.foldr_cons]
    exact max_le (h a (List.mem_cons_self _ _))
      (ih fun x hx => h x (List.mem_cons_of_mem _ hx))

theorem mem_factorize_iff {α : Type} [DecidableEq α] (l : List α) (n : Nat) :
    n ∈ factorize l ↔ n < (firstDedup l).length := by
  constructor
  · intro hmem
    rcases List.mem_map.mp hmem with ⟨a, ha, rfl⟩
    exact List.indexOf_lt_length.2 ((mem_firstDedup l a).mpr ha)
  · intro hn
    refine List.mem_map.mpr ⟨(firstDedup l)[n], ?_, ?_⟩
    · exact (mem_firstDedup l _).mp (List.getElem_mem hn)
    · exact List.indexOf_getElem (nodup_firstDedup l) n hn

theorem listMax_factorize {α : Type} [DecidableEq α] (l : List α) (h : l ≠ []) :
    listMax (factorize l) = (firstDedup l).length - 1 := by
  have hfd : firstDedup l ≠ [] := by
    rcases List.exists_mem_of_ne_nil l h with ⟨a, ha⟩
    intro hnil
    have := (mem_firstDedup l a).mpr ha
    simp [hnil] at this
  have hlen : 1 ≤ (firstDedup l).length := List.length_pos.mpr hfd
  apply le_antisymm
  · exact listMax_le fun x hx => by
      have := (mem_factorize_iff l x).mp hx
      omega
  · exact le_listMax ((mem_factorize_iff l _).mpr (by omega))

theorem flatMap_eq_map {α β : Type} (f : α → List β) (g : α → β) :
    ∀ (l : List α), (∀ a ∈ l, f a = [g a]) → l.flatMap f = l.map g
  | [], _ => rfl
  | a :: l, h => by
    rw [List.flatMap_cons, List.map_cons, h a (List.mem_cons_self _ _),
      flatMap_eq_map f g l fun b hb => h b (List.mem_cons_of_mem _ hb)]
    rfl

theorem filter_by_key_map {α κ μ : Type} [DecidableEq κ]
    (k : α → κ) (f : α → μ) (v : κ → μ) :
    ∀ (l : List α), (l.map k).Nodup → (∀ a ∈ l, f a = v (k a)) →
      ∀ (x : κ), x ∈ l.map k →
        (l.filter fun a => k a = x).map f = [v x]
  | [], _, _, x, hx => by cases hx
  | a :: l, hn, hv, x, hx => by
    simp only [List.map_cons, List.nodup_cons] at hn
    rw [List.filter_cons]
    by_cases hk : k a = x
    · rw [if_pos (by simpa using hk)]
      have hnil : l.filter (fun b => decide (k b = x)) = [] := by
        rw [List.filter_eq_nil_iff]
        intro b hb
        simp only [decide_eq_true_eq]
        intro hbx
        exact hn.1 (by rw [hk, ← hbx]; exact List.mem_map_of_mem k hb)
      rw [hnil, List.map_cons, List.map_nil, hv a (List.mem_cons_self _ _), hk]
    · rw [if_neg (by simpa using hk)]
      have hx' : x ∈ l.map k := by
        rcases List.mem_cons.mp hx with he | hm
        · exact absurd he.symm hk
        · exact hm
      exact filter_by_key_map k f v l hn.2
        (fun b hb => hv b (List.mem_cons_of_mem _ hb)) x hx'

theorem dimDate_month_key (rows : List CleanRow) :
    ∀ d ∈ dimDate rows, d.month = d.date_id.monthKey := by
  intro d hd
  rcases List.mem_map.mp
    (mem_of_mem_firstDedupBy _ _ _ hd) with ⟨r, _, rfl⟩
  rfl

theorem dimDate_keys_nodup (rows : List CleanRow) :
    ((dimDate rows).map DimDateRow.date_id).Nodup :=
  keys_nodup_firstDedupBy _ _

theorem factSales_date_mem_dimDate (rows : List CleanRow) :
    ∀ f ∈ factSales rows, f.date_id ∈ (dimDate rows).map DimDateRow.date_id := by
  intro f hf
  rcases List.mem_map.mp hf with ⟨r, hr, rfl⟩
  exact key_mem_firstDedupBy (fun d => d.date_id) _ (mkDimDateRow r)
    (List.mem_map_of_mem mkDimDateRow hr)

/-- Under the warehouse invariants, the date join attaches to every fact
row exactly the month of its own date. -/
theorem factJoinDate_eq (w : Warehouse)
    (h1 : ∀ d ∈ w.dim_date, d.month = d.date_id.monthKey)
    (h2 : (w.dim_date.map DimDateRow.date_id).Nodup)
    (h3 : ∀ f ∈ w.fact_sales, f.date_id ∈ w.dim_date.map DimDateRow.date_id) :
    factJoinDate w = w.fact_sales.map fun f => (f, f.date_id.monthKey) := by
  apply flatMap_eq_map
  intro f hf
  have hmap := filter_by_key_map DimDateRow.date_id DimDateRow.month Date.monthKey
    w.dim_date h2 h1 f.date_id (h3 f hf)
  calc (w.dim_date.filter fun d => d.date_id = f.date_id).map (fun d => (f, d.month))
      = ((w.dim_date.filter fun d => d.date_id = f.date_id).map
          DimDateRow.month).map (fun m => (f, m)) := by
        rw [List.map_map]; rfl
    _ = [(f, f.date_id.monthKey)] := by rw [hmap]; rfl

/-- The global monthly aggregate of a warehouse satisfying the star-schema
invariants: every aggregate row's TotalRevenue is the month's fact-side
revenue sum, and every fact month appears among the aggregate rows. -/
theorem monthlySales_spec (w : Warehouse)
    (h1 : ∀ d ∈ w.dim_date, d.month = d.date_id.monthKey)
    (h2 : (w.dim_date.map DimDateRow.date_id).Nodup)
    (h3 : ∀ f ∈ w.fact_sales, f.date_id ∈ w.dim_date.map DimDateRow.date_id) :
    (∀ row ∈ monthlySales w,
      row.totalRevenue =
        ((w.fact_sales.filter fun f => f.date_id.monthKey = row.month).map
          FactRow.revenue).sum) ∧
    ∀ f ∈ w.fact_sales,
      f.date_id.monthKey ∈ (monthlySales w).map MonthlySalesRow.month := by
  have hjoin := factJoinDate_eq w h1 h2 h3
  constructor
  · intro row hrow
    rcases List.mem_map.mp hrow with ⟨m, _, rfl⟩
    show monthRevenue w m = _
    rw [monthRevenue, hjoin, List.filter_map, List.map_map]
    rfl
  · intro f hf
    have hmonth : f.date_id.monthKey ∈ (factJoinDate w).map Prod.snd := by
      rw [hjoin, List.map_map]
      exact List.mem_map_of_mem _ hf
    have hkeys : f.date_id.monthKey ∈ monthKeysSorted w :=
      (List.mem_insertionSort _).mpr ((mem_firstDedup _ _).mpr hmonth)
    have hmap : (monthlySales w).map MonthlySalesRow.month = monthKeysSorted w := by
      rw [monthlySales, List.map_map]
      have hcomp : (MonthlySalesRow.month ∘ fun m => (⟨m, monthRevenue w m⟩ :
          MonthlySalesRow)) = id := rfl
      rw [hcomp, List.map_id]
    rw [hmap]
    exact hkeys

theorem monthlySales_months (w : Warehouse) :
    (monthlySales w).map MonthlySalesRow.month = monthKeysSorted w := by
  rw [monthlySales, List.map_map]
  have hcomp : (MonthlySalesRow.month ∘ fun m => (⟨m, monthRevenue w m⟩ :
      MonthlySalesRow)) = id := rfl
  rw [hcomp, List.map_id]

theorem monthlyCustomer_keys (w : Warehouse) :
    (monthlyCustomer w).map (fun r => (r.customerID, r.month)) =
      customerKeysSorted w := by
  rw [monthlyCustomer, List.map_map]
  have hcomp : ((fun r : MonthlyCustomerRow => (r.customerID, r.month)) ∘
      fun k : Int × MonthKey => (⟨k.snd, k.fst, customerRevenue w k⟩ :
        MonthlyCustomerRow)) = id := rfl
  rw [hcomp, List.map_id]

theorem monthlyProduct_keys (w : Warehouse) :
    (monthlyProduct w).map (fun r => (r.description, r.month)) =
      productKeysSorted w := by
  rw [monthlyProduct, List.map_map]
  have hcomp : ((fun r : MonthlyProductRow => (r.description, r.month)) ∘
      fun k : String × MonthKey => (⟨k.snd, k.fst, productRevenue w k⟩ :
        MonthlyProductRow)) = id := rfl
  rw [hcomp, List.map_id]

theorem length_sortByMonth (df : List MonthlySalesRow) :
    (sortByMonth df).length = df.length := by
  rw [sortByMonth, List.length_insertionSort]

theorem seriesPoints_length (df : List MonthlySalesRow) :
    (seriesPoints df).length = df.length := by
  rw [seriesPoints, List.length_zip, monthIndices, factorize, List.length_map,
    List.length_map, List.length_map, length_sortByMonth]
  exact Nat.min_self _

/-- `train_model` succeeds on every series of at least 2 points: the split
leaves a nonempty training set, and nothing else raises. -/
theorem train_model_ok (df : List MonthlySalesRow) (name : String)
    (h : 2 ≤ df.length) :
    train_model df name = Except.ok
      (⟨modelFilename name, (olsFit (trainPoints df)).fst,
          (olsFit (trainPoints df)).snd⟩,
        meanSquaredError (olsFit (trainPoints df)) (testPoints df)) := by
  have hn : ¬ nTrain df.length = 0 := by
    rw [nTrain, nTest]; omega
  rw [train_model, if_neg hn]

/-- The customer loop never raises and saves exactly the customers with at
least 5 aggregate rows, in loop order. -/
theorem trainCustomerLoop_ok (mc : List MonthlyCustomerRow) :
    ∀ ids : List Int, ∃ arts, trainCustomerLoop mc ids = Except.ok arts ∧
      arts.map Artifact.filename =
        (ids.filter fun cid =>
          5 ≤ (mc.filter fun r => r.customerID = cid).length).map
            fun cid => modelFilename ("customer_" ++ toString cid) := by
  intro ids
  induction ids with
  | nil => exact ⟨[], rfl, rfl⟩
  | cons cid rest ih =>
    rcases ih with ⟨arts, hok, hmap⟩
    by_cases h5 : 5 ≤ (mc.filter fun r => r.customerID = cid).length
    · have h2 : 2 ≤ ((mc.filter fun r => r.customerID = cid).map
          MonthlyCustomerRow.toSeries).length := by
        rw [List.length_map]; omega
      refine ⟨⟨modelFilename ("customer_" ++ toString cid),
        (olsFit (trainPoints ((mc.filter fun r => r.customerID = cid).map
          MonthlyCustomerRow.toSeries))).fst,
        (olsFit (trainPoints ((mc.filter fun r => r.customerID = cid).map
          MonthlyCustomerRow.toSeries))).snd⟩ :: arts, ?_, ?_⟩
      · simp only [trainCustomerLoop, if_pos h5, train_model_ok _ _ h2, hok]
      · rw [List.map_cons, hmap, List.filter_cons, if_pos (by simpa using h5),
          List.map_cons]
    · refine ⟨arts, ?_, ?_⟩
      · rw [trainCustomerLoop, if_neg h5, hok]
      · rw [hmap, List.filter_cons, if_neg (by simpa using h5)]

/-- The product loop never raises and saves exactly the descriptions with
at least 5 aggregate rows, under the trainer's sanitized keys. -/
theorem trainProductLoop_ok (mp : List MonthlyProductRow) :
    ∀ descs : List String, ∃ arts, trainProductLoop mp descs = Except.ok arts ∧
      arts.map Artifact.filename =
        (descs.filter fun d =>
          5 ≤ (mp.filter fun r => r.description = d).length).map
            fun d => modelFilename ("product_" ++ trainerSafeName d) := by
  intro descs
  induction descs with
  | nil => exact ⟨[], rfl, rfl⟩
  | cons d rest ih =>
    rcases ih with ⟨arts, hok, hmap⟩
    by_cases h5 : 5 ≤ (mp.filter fun r => r.description = d).length
    · have h2 : 2 ≤ ((mp.filter fun r => r.description = d).map
          MonthlyProductRow.toSeries).length := by
        rw [List.length_map]; omega
      refine ⟨⟨modelFilename ("product_" ++ trainerSafeName d),
        (olsFit (trainPoints ((mp.filter fun r => r.description = d).map
          MonthlyProductRow.toSeries))).fst,
        (olsFit (trainPoints ((mp.filter fun r => r.description = d).map
          MonthlyProductRow.toSeries))).snd⟩ :: arts, ?_, ?_⟩
      · simp only [trainProductLoop, if_pos h5, train_model_ok _ _ h2, hok]
      · rw [List.map_cons, hmap, List.filter_cons, if_pos (by simpa using h5),
          List.map_cons]
    · refine ⟨arts, ?_, ?_⟩
      · rw [trainProductLoop, if_neg h5, hok]
      · rw [hmap, List.filter_cons, if_neg (by simpa using h5)]

/-! ## Claim theorems -/

/-- C1: for every raw transaction input (and any prior database state),
every row of the global monthly aggregate returned by `run_etl` reports as
TotalRevenue exactly the sum of the revenue column over the fact_sales
rows whose date falls in that row's month, and every month occurring in
the fact table appears among the aggregate's months. -/
theorem fact_month_revenue_roundtrip (salesLog : List RawRow) (db : Warehouse) :
    (∀ row ∈ (run_etl salesLog db).2.1,
      row.totalRevenue =
        (((run_etl salesLog db).1.fact_sales.filter fun f =>
            f.date_id.monthKey = row.month).map FactRow.revenue).sum) ∧
    ∀ f ∈ (run_etl salesLog db).1.fact_sales,
      f.date_id.monthKey ∈ (run_etl salesLog db).2.1.map MonthlySalesRow.month := by
  have h1 : ∀ d ∈ (run_etl salesLog db).1.dim_date, d.month = d.date_id.monthKey :=
    dimDate_month_key (dropna salesLog)
  have h2 : ((run_etl salesLog db).1.dim_date.map DimDateRow.date_id).Nodup :=
    dimDate_keys_nodup (dropna salesLog)
  have h3 : ∀ f ∈ (run_etl salesLog db).1.fact_sales,
      f.date_id ∈ (run_etl salesLog db).1.dim_date.map DimDateRow.date_id :=
    factSales_date_mem_dimDate (dropna salesLog)
  exact monthlySales_spec (run_etl salesLog db).1 h1 h2 h3

/-- Witness for C1 at a concrete input: the January-2024 aggregate row of
`c1log` reports 30, the fact-side revenue sum of that month. -/
theorem fact_month_revenue_roundtrip_witness :
    ((⟨⟨2024, 1⟩, 30⟩ : MonthlySalesRow) ∈ (run_etl c1log emptyWarehouse).2.1) ∧
    (⟨⟨2024, 1⟩, 30⟩ : MonthlySalesRow).totalRevenue =
      (((run_etl c1log emptyWarehouse).1.fact_sales.filter fun f =>
          f.date_id.monthKey = (⟨⟨2024, 1⟩, 30⟩ : MonthlySalesRow).month).map
        FactRow.revenue).sum :=
  ⟨by decide,
   (fact_month_revenue_roundtrip c1log emptyWarehouse).1 _ (by decide)⟩

/-- C6: rebuilding the warehouse is idempotent: a second `run_etl` from
the same raw input, starting from the database state the first run left
behind, returns exactly the same tables and aggregates; more generally the
result is independent of the prior database state because every table is
written with replace semantics, never appended. -/
theorem run_etl_idempotent (salesLog : List RawRow) (db db' : Warehouse) :
    run_etl salesLog (run_etl salesLog db).1 = run_etl salesLog db ∧
    run_etl salesLog db = run_etl salesLog db' :=
  ⟨rfl, rfl⟩

/-- Counterexample to C7: after building from `c7log`, customer 42 owns
two rows of the customer dimension (one per country) and stock code "A1"
owns two rows of the product dimension (one per description), so neither
dimension is unique on its natural key alone. -/
theorem dims_not_unique_per_natural_key :
    (((run_etl c7log emptyWarehouse).1.dim_customer.filter fun r =>
        r.customerID = 42).length = 2) ∧
    (((run_etl c7log emptyWarehouse).1.dim_product.filter fun r =>
        r.stockCode = "A1").length = 2) := by decide

/-- C7 (amended): the dimensions are unique per full pair, not per natural
key: the customer dimension holds exactly one row per distinct
(customer_id, country) pair occurring in the cleaned input, and the
product dimension exactly one row per distinct (stock_code, description)
pair, each first occurrence kept. -/
theorem dims_one_row_per_pair (rows : List CleanRow)
    (c : DimCustomerRow) (p : DimProductRow) :
    (dimCustomer rows).count c =
      (if c ∈ rows.map (fun r => DimCustomerRow.mk r.customerID r.country)
        then 1 else 0) ∧
    (dimProduct rows).count p =
      (if p ∈ rows.map (fun r => DimProductRow.mk r.stockCode r.description)
        then 1 else 0) := by
  constructor
  · rw [dimCustomer]
    split
    next h =>
      exact List.count_eq_one_of_mem (nodup_firstDedup _)
        ((mem_firstDedup _ _).mpr h)
    next h =>
      exact List.count_eq_zero_of_not_mem
        (fun hm => h ((mem_firstDedup _ _).mp hm))
  · rw [dimProduct]
    split
    next h =>
      exact List.count_eq_one_of_mem (nodup_firstDedup _)
        ((mem_firstDedup _ _).mpr h)
    next h =>
      exact List.count_eq_zero_of_not_mem
        (fun hm => h ((mem_firstDedup _ _).mp hm))

/-- C10: for every series of at least one observation the chronological
80/20 split holds out at least one point (`n_test = ceil(0.2 n) ≥ 1`), so
the fit never sees the whole series; a 5-point series in particular is fit
on exactly its first 4 points with a single held-out point. -/
theorem split_holdout_nonempty (n : Nat) (df : List MonthlySalesRow)
    (h : 1 ≤ n) (hdf : df.length = 5) :
    1 ≤ nTest n ∧ nTrain n < n ∧ nTest 5 = 1 ∧ nTrain 5 = 4 ∧
    trainPoints df = (seriesPoints df).take 4 ∧ (testPoints df).length = 1 := by
  refine ⟨?_, ?_, rfl, rfl, ?_, ?_⟩
  · rw [nTest]; omega
  · rw [nTrain, nTest]; omega
  · rw [trainPoints, hdf, show nTrain 5 = 4 from rfl]
  · rw [testPoints, hdf, List.length_drop, seriesPoints_length, hdf,
      show nTrain 5 = 4 from rfl]

/-- Witness for C10 at `n = 7` and the concrete 5-month series. -/
theorem split_holdout_nonempty_witness :
    1 ≤ nTest 7 ∧ nTrain 7 < 7 ∧ nTest 5 = 1 ∧ nTrain 5 = 4 ∧
    trainPoints c10series = (seriesPoints c10series).take 4 ∧
    (testPoints c10series).length = 1 :=
  split_holdout_nonempty 7 c10series (by decide) (by decide)

/-- C3: for a series with at least 5 distinct months (one aggregate row
per month), the ordinal month index column `train_model` builds is exactly
0, 1, 2, …, n-1 over the chronologically sorted series — one index per
distinct month, increasing by exactly 1 — and the sorted month sequence is
strictly increasing. -/
theorem ordinal_index_assignment (df : List MonthlySalesRow)
    (hnd : (df.map MonthlySalesRow.month).Nodup) (_hlen : 5 ≤ df.length) :
    monthIndices df = List.range df.length ∧
    ((sortByMonth df).map MonthlySalesRow.month).Sorted (· < ·) := by
  have hperm : List.Perm ((sortByMonth df).map MonthlySalesRow.month)
      (df.map MonthlySalesRow.month) :=
    (List.perm_insertionSort (byKey MonthlySalesRow.month) df).map _
  have hnd' : ((sortByMonth df).map MonthlySalesRow.month).Nodup :=
    hperm.nodup_iff.mpr hnd
  refine ⟨?_, ?_⟩
  · rw [monthIndices, factorize_of_nodup _ hnd', List.length_map,
      length_sortByMonth]
  · have hsorted : ((sortByMonth df).map MonthlySalesRow.month).Sorted (· ≤ ·) :=
      (List.sorted_insertionSort (byKey MonthlySalesRow.month) df).map
        MonthlySalesRow.month (fun _ _ h => h)
    exact hsorted.lt_of_le hnd'

/-- Witness for C3 on a 5-month series delivered out of order. -/
theorem ordinal_index_assignment_witness :
    monthIndices c3series = List.range c3series.length ∧
    ((sortByMonth c3series).map MonthlySalesRow.month).Sorted (· < ·) :=
  ordinal_index_assignment c3series (by decide) (by decide)

/-- C4: for every nonempty entity series, the next-month index the
Forecast Service computes (`factorize` the month column as delivered, take
the max code, add 1) equals one plus the largest ordinal index the Trainer
assigns to the same series (which factorizes after sorting): the two
components implement the same ordinal assignment rule. -/
theorem forecast_next_index_consistent (df : List MonthlySalesRow)
    (h : df ≠ []) :
    forecastNextIndex (df.map MonthlySalesRow.month) = trainerMaxIndex df + 1 := by
  have hm : df.map MonthlySalesRow.month ≠ [] := by
    intro hx
    exact h (List.map_eq_nil_iff.mp hx)
  have hs : (sortByMonth df).map MonthlySalesRow.month ≠ [] := by
    intro hx
    have := congrArg List.length hx
    rw [List.length_map, length_sortByMonth, List.length_nil] at this
    exact h (List.length_eq_zero.mp this)
  rw [forecastNextIndex, trainerMaxIndex, monthIndices,
    listMax_factorize _ hm, listMax_factorize _ hs]
  have hlen : (firstDedup ((sortByMonth df).map MonthlySalesRow.month)).length
      = (firstDedup (df.map MonthlySalesRow.month)).length := by
    have hperm : List.Perm
        (firstDedup ((sortByMonth df).map MonthlySalesRow.month))
        (firstDedup (df.map MonthlySalesRow.month)) := by
      rw [List.perm_ext_iff_of_nodup (nodup_firstDedup _) (nodup_firstDedup _)]
      intro a
      rw [mem_firstDedup, mem_firstDedup]
      exact ((List.perm_insertionSort (byKey MonthlySalesRow.month) df).map
        MonthlySalesRow.month).mem_iff
    exact hperm.length_eq
  have hpos : 1 ≤ (firstDedup (df.map MonthlySalesRow.month)).length := by
    rcases List.exists_mem_of_ne_nil _ hm with ⟨a, ha⟩
    exact List.length_pos.mpr
      (List.ne_nil_of_mem ((mem_firstDedup _ a).mpr ha))
  omega

/-- Witness for C4 on a 3-month series with a gap. -/
theorem forecast_next_index_consistent_witness :
    forecastNextIndex (c4series.map MonthlySalesRow.month) =
      trainerMaxIndex c4series + 1 :=
  forecast_next_index_consistent c4series (by decide)

/-- Counterexample to C2: on a global series with only 4 distinct months
(and no customers or products), the `__main__` block still persists the
global artifact — the < 5 skip rule does not guard the global entity. -/
theorem global_trained_below_five_months :
    (firstDedup (c2series.map MonthlySalesRow.month)).length < 5 ∧
    trainMain c2series [] [] =
      Except.ok [⟨"models/global_model.pkl", 5, 105⟩] := by
  constructor
  · decide
  · decide

/-- C2 (amended): the per-customer and per-product training loops raise no
exception and persist artifacts exactly for the entities whose filtered
series has at least 5 rows, so every customer or product with fewer than 5
distinct months is skipped with no artifact; the global series carries no
such guard. -/
theorem entity_loops_skip_short_series (mc : List MonthlyCustomerRow)
    (mp : List MonthlyProductRow) (ids : List Int) (descs : List String) :
    (∃ arts, trainCustomerLoop mc ids = Except.ok arts ∧
      arts.map Artifact.filename =
        (ids.filter fun cid =>
          5 ≤ (mc.filter fun r => r.customerID = cid).length).map
            fun cid => modelFilename ("customer_" ++ toString cid)) ∧
    (∃ arts, trainProductLoop mp descs = Except.ok arts ∧
      arts.map Artifact.filename =
        (descs.filter fun d =>
          5 ≤ (mp.filter fun r => r.description = d).length).map
            fun d => modelFilename ("product_" ++ trainerSafeName d)) :=
  ⟨trainCustomerLoop_ok mc ids, trainProductLoop_ok mp descs⟩

/-- C5 is refuted by the code: the Trainer and the Forecast Service use
different sanitization rules (regex substitution of every
non-alphanumeric/non-underscore character with a 50-character prefix
versus replacement of only spaces and slashes with a 30-character prefix),
so the persisted filename and the looked-up filename differ already on
"Red Mug!". -/
theorem product_key_rules_differ :
    trainerSafeName "Red Mug!" = "red_mug_" ∧
    appSafeName "Red Mug!" = "red_mug!" ∧
    trainerProductModelPath "Red Mug!" ≠ appProductModelPath "Red Mug!" := by
  refine ⟨by decide, by decide, by decide⟩

/-- Counterexample to C8: built from `c8log`, the per-customer aggregate
is ordered `CustomerID, month` — its month column [Jan, Feb, Jan] is not
ascending, so month is not the primary sort key. -/
theorem monthly_customer_not_month_primary :
    ((run_etl c8log emptyWarehouse).2.2.1.map MonthlyCustomerRow.month) =
      [⟨2024, 1⟩, ⟨2024, 2⟩, ⟨2024, 1⟩] ∧
    ¬ ((run_etl c8log emptyWarehouse).2.2.1.map
        MonthlyCustomerRow.month).Sorted (· ≤ ·) := by
  constructor
  · decide
  · decide

/-- C8 (amended): the global aggregate is sorted ascending by month, but
the per-customer aggregate is sorted by (CustomerID, month) and the
per-product aggregate by (Description, month) — the entity key is the
primary sort key and month only orders rows within one entity. -/
theorem aggregate_sort_orders (salesLog : List RawRow) (db : Warehouse) :
    ((run_etl salesLog db).2.1.map MonthlySalesRow.month).Sorted (· ≤ ·) ∧
    ((run_etl salesLog db).2.2.1.map fun r =>
      (r.customerID, r.month)).Sorted (keyLex Prod.fst Prod.snd) ∧
    ((run_etl salesLog db).2.2.2.map fun r =>
      (r.description, r.month)).Sorted (keyLex Prod.fst Prod.snd) := by
  refine ⟨?_, ?_, ?_⟩
  · show ((monthlySales (run_etl salesLog db).1).map
      MonthlySalesRow.month).Sorted (· ≤ ·)
    rw [monthlySales_months, monthKeysSorted]
    exact List.sorted_insertionSort _ _
  · show ((monthlyCustomer (run_etl salesLog db).1).map fun r =>
      (r.customerID, r.month)).Sorted (keyLex Prod.fst Prod.snd)
    rw [monthlyCustomer_keys, customerKeysSorted]
    exact List.sorted_insertionSort _ _
  · show ((monthlyProduct (run_etl salesLog db).1).map fun r =>
      (r.description, r.month)).Sorted (keyLex Prod.fst Prod.snd)
    rw [monthlyProduct_keys, productKeysSorted]
    exact List.sorted_insertionSort _ _

/-- Counterexample to C9: the year-over-year computation has no
zero-denominator special case: on a 13-month series whose year-ago value
is 0 and whose current value is positive it performs the unguarded
division (embedded as `none`) instead of reporting the claimed 100%; the
global forecast-change computation is equally unguarded. -/
theorem yoy_no_zero_special_case :
    13 ≤ c9bad.length ∧
    c9bad.getD (c9bad.length - 13) 0 = 0 ∧
    0 < c9bad.getD (c9bad.length - 1) 0 ∧
    yoyChange c9bad = none ∧
    forecastChangeGlobal 7 0 = none := by
  refine ⟨by decide, by decide, by decide, by decide, by decide⟩

/-- C9 (amended): `calculate_growth_metrics` and the customer- and
product-tab forecast changes special-case a zero denominator (100% for a
positive current value, else 0%; forecast change 0%), while the
year-over-year computation and the global forecast change do not — they
divide by the zero value unguarded. -/
theorem growth_zero_denominator (vals : List ℚ) (prediction : ℚ)
    (_h2 : 2 ≤ vals.length) (_h13 : 13 ≤ vals.length)
    (hprev : vals.getD (vals.length - 2) 0 = 0)
    (hyear : vals.getD (vals.length - 13) 0 = 0) :
    (calculate_growth_metrics vals).fst =
      (if 0 < vals.getD (vals.length - 1) 0 then 100 else 0) ∧
    forecastChangeCustomer prediction 0 = 0 ∧
    forecastChangeProduct prediction 0 = 0 ∧
    yoyChange vals = none ∧
    forecastChangeGlobal prediction 0 = none := by
  refine ⟨?_, ?_, ?_, ?_, ?_⟩
  · simp only [calculate_growth_metrics]
    rw [if_neg (by omega : ¬ vals.length < 2), hprev]
    simp
  · rw [forecastChangeCustomer, if_pos rfl]
  · rw [forecastChangeProduct, if_pos rfl]
  · simp only [yoyChange]
    rw [hyear]
    simp
  · rw [forecastChangeGlobal, if_pos rfl]

/-- Witness for the amended C9 on thirteen zero revenues. -/
theorem growth_zero_denominator_witness :
    (calculate_growth_metrics c9vals).fst =
      (if 0 < c9vals.getD (c9vals.length - 1) 0 then 100 else 0) ∧
    forecastChangeCustomer 7 0 = 0 ∧
    forecastChangeProduct 7 0 = 0 ∧
    yoyChange c9vals = none ∧
    forecastChangeGlobal 7 0 = none :=
  growth_zero_denominator c9vals 7 (by decide) (by decide) (by decide) (by decide)

end AutomatePipeline
